import Mathlib

/-!
Shallow embedding of the terrain-analysis engine of the Geovisor repository
(`src/lib/geo-math.ts`), together with proofs of the specification's testable
properties. JavaScript IEEE-754 numbers are modelled as real numbers; every
definition mirrors its source function statement by statement.
-/

open Real

namespace GeoMath

noncomputable section

/-- JavaScript `Math.atan2 y x` on real inputs (signed-zero distinctions are
not representable in ℝ and are collapsed). -/
def atan2 (y x : ℝ) : ℝ :=
  if 0 < x then arctan (y / x)
  else if x < 0 then
    (if 0 ≤ y then arctan (y / x) + π else arctan (y / x) - π)
  else
    (if 0 < y then π / 2 else if y < 0 then -(π / 2) else 0)

/-- `haversineDistance` (geo-math.ts lines 13-28): great-circle distance in
kilometres between two `[longitude, latitude]` coordinates, Earth radius 6371 km. -/
def haversineDistance (coords1 coords2 : ℝ × ℝ) : ℝ :=
  let R : ℝ := 6371
  let dLat := (coords2.2 - coords1.2) * π / 180
  let dLon := (coords2.1 - coords1.1) * π / 180
  let lat1 := coords1.2 * π / 180
  let lat2 := coords2.2 * π / 180
  let a := Real.sin (dLat / 2) * Real.sin (dLat / 2) +
    Real.sin (dLon / 2) * Real.sin (dLon / 2) * Real.cos lat1 * Real.cos lat2
  let c := 2 * atan2 (Real.sqrt a) (Real.sqrt (1 - a))
  R * c

/-- `calculateLineDistance` (lines 35-41): sum of `haversineDistance` over
consecutive coordinate pairs. -/
def calculateLineDistance : List (ℝ × ℝ) → ℝ
  | p :: q :: rest => haversineDistance p q + calculateLineDistance (q :: rest)
  | _ => 0

/-- One summand of the shoelace-on-the-sphere loop of `calculatePolygonArea`
(line 65), with the per-vertex degree→radian conversions of lines 62-63. -/
def areaTerm (p1 p2 : ℝ × ℝ) : ℝ :=
  (p2.1 * π / 180 - p1.1 * π / 180) * (2 + Real.sin (p1.2 * π / 180) + Real.sin (p2.2 * π / 180))

/-- The accumulated `area` variable of `calculatePolygonArea` after its loop
(lines 55-66): the cyclic sum of `areaTerm` over consecutive vertices, the
modular index `(i+1) % n` of line 60 realising the wrap-around edge. -/
def ringSum (coordinates : List (ℝ × ℝ)) : ℝ :=
  ∑ i ∈ Finset.range coordinates.length,
    areaTerm (coordinates.getD i (0, 0))
      (coordinates.getD ((i + 1) % coordinates.length) (0, 0))

/-- `calculatePolygonArea` (lines 50-69): spherical-excess approximation of the
area of a ring, in square metres; `< 3` vertices yields `0`. -/
def calculatePolygonArea (coordinates : List (ℝ × ℝ)) : ℝ :=
  if coordinates.length < 3 then 0
  else
    let R2 : ℝ := 6371e3 * 6371e3
    |ringSum coordinates * R2 / 2|

/-- A `[minX, minY, maxX, maxY]` bounding-box array. -/
structure BBox4 where
  minX : ℝ
  minY : ℝ
  maxX : ℝ
  maxY : ℝ

/-- The `DemData` snapshot of `types/index.ts`: flat row-major raster values,
dimensions, native and WGS84 bounding boxes, optional no-data sentinel and
optional forward projection. -/
structure DemData where
  values : List ℝ
  width : ℕ
  height : ℕ
  bbox : BBox4
  wgs84Bbox : BBox4
  noDataValue : Option ℝ
  projConverter : Option (ℝ × ℝ → ℝ × ℝ)

/-- The `projConverter ? projConverter(c) : c` idiom used throughout the source. -/
def projectPoint (dem : DemData) (c : ℝ × ℝ) : ℝ × ℝ :=
  match dem.projConverter with
  | some conv => conv c
  | none => c

/-- The §3 data-model invariants of `DemData`: `values.length = width*height`,
both dimensions at least 1, and the native bbox bounds a genuine (non-empty)
extent. -/
def DemData.WellFormed (dem : DemData) : Prop :=
  dem.values.length = dem.width * dem.height ∧
  1 ≤ dem.width ∧ 1 ≤ dem.height ∧
  dem.bbox.minX < dem.bbox.maxX ∧ dem.bbox.minY < dem.bbox.maxY

/-- The guard-and-index part of `getElevationFromDem` (lines 101-127): the two
bounding-box rejection tests, the fractional position, the floored cell
indices, the index-range rejection, and the flat row-major index. -/
def demCellIndex (lon lat : ℝ) (dem : DemData) : Option ℕ :=
  if lon < dem.wgs84Bbox.minX ∨ lon > dem.wgs84Bbox.maxX ∨
     lat < dem.wgs84Bbox.minY ∨ lat > dem.wgs84Bbox.maxY then none
  else
    let projCoords := projectPoint dem (lon, lat)
    let projX := projCoords.1
    let projY := projCoords.2
    if projX < dem.bbox.minX ∨ projX > dem.bbox.maxX ∨
       projY < dem.bbox.minY ∨ projY > dem.bbox.maxY then none
    else
      let xPercent := (projX - dem.bbox.minX) / (dem.bbox.maxX - dem.bbox.minX)
      let yPercent := (dem.bbox.maxY - projY) / (dem.bbox.maxY - dem.bbox.minY)
      let px : ℤ := ⌊xPercent * dem.width⌋
      let py : ℤ := ⌊yPercent * dem.height⌋
      if px < 0 ∨ px ≥ dem.width ∨ py < 0 ∨ py ≥ dem.height then none
      else some (py * dem.width + px).toNat

/-- `getElevationFromDem` (lines 98-135). The out-of-range lookup (`undefined`
in JavaScript, impossible once `values.length = width*height`) is collapsed to
`none` like `null`. -/
def getElevationFromDem (lon lat : ℝ) (dem : DemData) : Option ℝ :=
  match demCellIndex lon lat dem with
  | none => none
  | some index =>
    match dem.values[index]? with
    | none => none
    | some elevation => if some elevation = dem.noDataValue then none else some elevation

/-- One `{distance, elevation}` entry of an elevation profile. -/
structure Sample where
  distance : ℝ
  elevation : ℝ

/-- The inner sampling loop of `getProfileFromDem` for one segment
(lines 157-166): for `j = 1..num`, linearly interpolate the coordinate at
`t = j/num`, and keep the sample (with along-path distance in metres) when the
DEM resolves an elevation there. -/
def segSamples (dem : DemData) (p q : ℝ × ℝ) (acc : ℝ) (num : ℕ) : List Sample :=
  (List.range num).filterMap fun j0 =>
    let j : ℕ := j0 + 1
    let t : ℝ := (j : ℝ) / (num : ℝ)
    let lon := p.1 + (q.1 - p.1) * t
    let lat := p.2 + (q.2 - p.2) * t
    let sampleDist := acc + haversineDistance p q * t
    (getElevationFromDem lon lat dem).map fun elev => ⟨sampleDist * 1000, elev⟩

/-- The outer segment loop of `getProfileFromDem` (lines 151-168), carrying the
accumulated distance; the per-segment sample budget is
`max 2 ⌈samples * segmentDist/total⌉` (line 155). -/
def walkSegments (dem : DemData) (samples : ℕ) (total : ℝ) :
    List (ℝ × ℝ) → ℝ → List Sample
  | p :: q :: rest, acc =>
    let segmentDist := haversineDistance p q
    let num := max 2 (⌈(samples : ℝ) * (segmentDist / total)⌉.toNat)
    segSamples dem p q acc num ++ walkSegments dem samples total (q :: rest) (acc + segmentDist)
  | _, _ => []

/-- The start-vertex sample of `getProfileFromDem` (lines 146-149): sample
`coords[0]` and emit `{distance: 0}` when its elevation resolves. (An empty
coordinate list cannot reach this code in the source: the zero-length guard
fires first.) -/
def startSample (coords : List (ℝ × ℝ)) (dem : DemData) : List Sample :=
  match coords with
  | [] => []
  | p :: _ =>
    match getElevationFromDem p.1 p.2 dem with
    | some elev => [⟨0, elev⟩]
    | none => []

/-- The full list of valid samples collected by `getProfileFromDem`: the start
vertex followed by the segment loop. -/
def buildProfile (coords : List (ℝ × ℝ)) (dem : DemData) (samples : ℕ) : List Sample :=
  startSample coords dem ++ walkSegments dem samples (calculateLineDistance coords) coords 0

/-- `getProfileFromDem` (lines 137-171): `null` for a zero-length line, and
`null` unless more than one valid sample was collected. -/
def getProfileFromDem (line : List (ℝ × ℝ)) (dem : DemData) (samples : ℕ := 100) :
    Option (List Sample) :=
  let totalDistanceKm := calculateLineDistance line
  if totalDistanceKm = 0 then none
  else
    let profile := buildProfile line dem samples
    if 1 < profile.length then some profile else none

/-- `isPointInPolygon` (lines 173-184): even-odd ray casting; at step `i` the
partner index `j` is the previous vertex (`n-1` at `i = 0`), exactly the
`for (i = 0, j = n-1; i < n; j = i++)` loop of the source. -/
def isPointInPolygon (point : ℝ × ℝ) (vs : List (ℝ × ℝ)) : Bool :=
  (List.range vs.length).foldl
    (fun inside i =>
      let j := if i = 0 then vs.length - 1 else i - 1
      let vi := vs.getD i (0, 0)
      let vj := vs.getD j (0, 0)
      let intersect := (Xor' (vi.2 > point.2) (vj.2 > point.2)) ∧
        point.1 < (vj.1 - vi.1) * (point.2 - vi.2) / (vj.2 - vi.2) + vi.1
      if intersect then !inside else inside)
    false

/-- A row-major 3×3 matrix, the `A[i][j]` array-of-arrays of `solve3x3`. -/
structure Mat3 where
  a00 : ℝ
  a01 : ℝ
  a02 : ℝ
  a10 : ℝ
  a11 : ℝ
  a12 : ℝ
  a20 : ℝ
  a21 : ℝ
  a22 : ℝ

/-- `solve3x3` (lines 186-206): closed-form adjugate/determinant solve of
`A x = b`, `null` when `|det A| < 1e-9`. -/
def solve3x3 (A : Mat3) (b0 b1 b2 : ℝ) : Option (ℝ × ℝ × ℝ) :=
  let detA := A.a00 * (A.a11 * A.a22 - A.a21 * A.a12) -
              A.a01 * (A.a10 * A.a22 - A.a12 * A.a20) +
              A.a02 * (A.a10 * A.a21 - A.a11 * A.a20)
  if |detA| < 1e-9 then none
  else
    let invDetA := 1 / detA
    let adj00 := A.a11 * A.a22 - A.a21 * A.a12
    let adj01 := -(A.a01 * A.a22 - A.a02 * A.a21)
    let adj02 := A.a01 * A.a12 - A.a02 * A.a11
    let adj10 := -(A.a10 * A.a22 - A.a12 * A.a20)
    let adj11 := A.a00 * A.a22 - A.a02 * A.a20
    let adj12 := -(A.a00 * A.a12 - A.a10 * A.a02)
    let adj20 := A.a10 * A.a21 - A.a20 * A.a11
    let adj21 := -(A.a00 * A.a21 - A.a20 * A.a01)
    let adj22 := A.a00 * A.a11 - A.a10 * A.a01
    some (invDetA * (adj00 * b0 + adj01 * b1 + adj02 * b2),
          invDetA * (adj10 * b0 + adj11 * b1 + adj12 * b2),
          invDetA * (adj20 * b0 + adj21 * b1 + adj22 * b2))

/-- The four `VolumeCalcMethod` strings of `types/index.ts`. -/
inductive VolumeCalcMethod
  | lowestPoint
  | averagePerimeter
  | bestFit
  | fixedElevation
deriving DecidableEq

/-- The base reference plane: either flat (`{elevation}`) or tilted
(`{a, b, c}`, elevation `a*projX + b*projY + c`). -/
inductive BasePlane
  | flat (elevation : ℝ)
  | tilted (a b c : ℝ)
deriving DecidableEq

/-- The `VolumeOptions` argument of `getVolumeFromDem`; an absent
`fixedElevation` is `none`, `gridSize` defaults to 50. -/
structure VolumeOptions where
  method : VolumeCalcMethod
  fixedElevation : Option ℝ
  gridSize : ℕ := 50

/-- A polygon `Feature`: the outer ring `geometry.coordinates[0]` and the
optional precomputed GeoJSON `bbox` used by the gridding step. -/
structure PolygonFeature where
  ring : List (ℝ × ℝ)
  bbox : Option BBox4

/-- `{ cut, fill, net, basePlane, method }` as returned by `getVolumeFromDem`. -/
structure VolumeResult where
  cut : ℝ
  fill : ℝ
  net : ℝ
  basePlane : BasePlane
  method : VolumeCalcMethod

/-- One perimeter vertex kept by the filter of lines 223-230: its WGS84
coordinate, projected coordinate, and resolved elevation. -/
structure PerimeterPoint where
  wgs : ℝ × ℝ
  proj : ℝ × ℝ
  elevation : ℝ

/-- Perimeter sampling (lines 223-230): map every outer-ring vertex to its
projection and DEM elevation, keeping only vertices whose elevation resolves. -/
def perimeterPoints (polygon : PolygonFeature) (dem : DemData) : List PerimeterPoint :=
  polygon.ring.filterMap fun coord =>
    (getElevationFromDem coord.1 coord.2 dem).map fun elev =>
      { wgs := coord, proj := projectPoint dem coord, elevation := elev }

/-- JavaScript `Math.min(...xs)` over a spread list; the empty case (which
yields `Infinity` in JavaScript) is unreachable behind the ≥ 3 guard. -/
def jsMinList : List ℝ → ℝ
  | [] => 0
  | x :: xs => xs.foldl min x

/-- The base-plane dispatch of lines 234-258: `lowestPoint`, `averagePerimeter`,
`fixedElevation` (only when a value was supplied — otherwise no branch fires and
the plane stays `null`), and the least-squares `bestFit` via `solve3x3`. -/
def computeBasePlane (pts : List PerimeterPoint) (options : VolumeOptions) : Option BasePlane :=
  if options.method = .lowestPoint then
    some (.flat (jsMinList (pts.map (·.elevation))))
  else if options.method = .averagePerimeter then
    some (.flat ((pts.map (·.elevation)).sum / (pts.length : ℝ)))
  else if options.method = .fixedElevation then
    match options.fixedElevation with
    | some e => some (.flat e)
    | none => none
  else if options.method = .bestFit then
    let n : ℝ := (pts.length : ℝ)
    let sumX := (pts.map (·.proj.1)).sum
    let sumY := (pts.map (·.proj.2)).sum
    let sumZ := (pts.map (·.elevation)).sum
    let sumXY := (pts.map fun p => p.proj.1 * p.proj.2).sum
    let sumX2 := (pts.map fun p => p.proj.1 * p.proj.1).sum
    let sumY2 := (pts.map fun p => p.proj.2 * p.proj.2).sum
    let sumXZ := (pts.map fun p => p.proj.1 * p.elevation).sum
    let sumYZ := (pts.map fun p => p.proj.2 * p.elevation).sum
    match solve3x3 ⟨sumX2, sumXY, sumX, sumXY, sumY2, sumY, sumX, sumY, n⟩ sumXZ sumYZ sumZ with
    | some (a, b, c) => some (.tilted a b c)
    | none => none
  else none

/-- Base-plane evaluation at a projected grid point (lines 290-295): constant
for a flat plane, linear for a tilted one. -/
def baseElevationAt (bp : BasePlane) (projX projY : ℝ) : ℝ :=
  match bp with
  | .flat e => e
  | .tilted a b c => a * projX + b * projY + c

/-- One grid cell of the integration loop (lines 279-306), returning its
`(cut, fill, demAccesses)` contribution: `(0, 0, 0)` outside the polygon,
`(0, 0, 1)` for an unresolved cell, and the signed `delta * cellArea` split
otherwise. -/
def gridCellContribution (dem : DemData) (ring : List (ℝ × ℝ)) (bp : BasePlane)
    (minLon minLat lonStep latStep bboxMinProjX bboxMinProjY projXStep projYStep cellArea : ℝ)
    (i j : ℕ) : ℝ × ℝ × ℕ :=
  let lon := minLon + lonStep * ((i : ℝ) + 0.5)
  let lat := minLat + latStep * ((j : ℝ) + 0.5)
  if isPointInPolygon (lon, lat) ring then
    match getElevationFromDem lon lat dem with
    | some demElevation =>
      let projX := bboxMinProjX + projXStep * ((i : ℝ) + 0.5)
      let projY := bboxMinProjY + projYStep * ((j : ℝ) + 0.5)
      let delta := demElevation - baseElevationAt bp projX projY
      if delta > 0 then (0, delta * cellArea, 1) else (-delta * cellArea, 0, 1)
    | none => (0, 0, 1)
  else (0, 0, 0)

/-- `getVolumeFromDem` (lines 215-315), instrumented with the total number of
`getElevationFromDem` invocations it performs (second component), so that
DEM-access claims can be stated. Control flow follows the source: perimeter
sampling first, the `< 3` rejection, the base-plane dispatch, the `!basePlane`
rejection, then grid integration over the feature's `bbox`.

When `polygon.bbox` is absent, source line 262 seeds the box with
`[Infinity, Infinity, -Infinity, -Infinity]` and never folds the ring over it:
every grid centre is then `Infinity + (-Infinity)*k = NaN`, every `>`
comparison against `NaN` inside `isPointInPolygon` is false so no cell is ever
classified inside, and the loop accumulates nothing. That observable outcome —
`cut = 0, fill = 0, net = 0` with no grid DEM access — is embedded directly in
the `none` branch below. -/
def getVolumeFromDemT (polygon : PolygonFeature) (dem : DemData) (options : VolumeOptions) :
    Option VolumeResult × ℕ :=
  let pts := perimeterPoints polygon dem
  let perimeterAccesses := polygon.ring.length
  if pts.length < 3 then (none, perimeterAccesses)
  else
    match computeBasePlane pts options with
    | none => (none, perimeterAccesses)
    | some bp =>
      match polygon.bbox with
      | none =>
        (some { cut := 0, fill := 0, net := 0, basePlane := bp, method := options.method },
         perimeterAccesses)
      | some box =>
        let minLon := box.minX
        let minLat := box.minY
        let maxLon := box.maxX
        let maxLat := box.maxY
        let projMin := projectPoint dem (minLon, minLat)
        let projMax := projectPoint dem (maxLon, maxLat)
        let lonStep := (maxLon - minLon) / (options.gridSize : ℝ)
        let latStep := (maxLat - minLat) / (options.gridSize : ℝ)
        let projXStep := (projMax.1 - projMin.1) / (options.gridSize : ℝ)
        let projYStep := (projMax.2 - projMin.2) / (options.gridSize : ℝ)
        let centerLat := minLat + (maxLat - minLat) / 2
        let cellWidthMeters :=
          haversineDistance (minLon, centerLat) (minLon + lonStep, centerLat) * 1000
        let cellHeightMeters :=
          haversineDistance (minLon, minLat) (minLon, minLat + latStep) * 1000
        let cellArea := cellWidthMeters * cellHeightMeters
        let contribution := fun (i j : ℕ) =>
          gridCellContribution dem polygon.ring bp minLon minLat lonStep latStep
            projMin.1 projMin.2 projXStep projYStep cellArea i j
        let cutVolume := ∑ i ∈ Finset.range options.gridSize,
          ∑ j ∈ Finset.range options.gridSize, (contribution i j).1
        let fillVolume := ∑ i ∈ Finset.range options.gridSize,
          ∑ j ∈ Finset.range options.gridSize, (contribution i j).2.1
        let gridAccesses := ∑ i ∈ Finset.range options.gridSize,
          ∑ j ∈ Finset.range options.gridSize, (contribution i j).2.2
        (some { cut := cutVolume, fill := fillVolume, net := fillVolume - cutVolume,
                basePlane := bp, method := options.method },
         perimeterAccesses + gridAccesses)

/-- `getVolumeFromDem` proper: the result component of the instrumented
function. -/
def getVolumeFromDem (polygon : PolygonFeature) (dem : DemData) (options : VolumeOptions) :
    Option VolumeResult :=
  (getVolumeFromDemT polygon dem options).1

/-! Concrete fixtures used to instantiate the theorems below. -/

/-- A 1×1 raster over the square extent `[-10,-10,10,10]` in both coordinate
spaces (no projection), holding the given values. -/
def unitDem (vals : List ℝ) (nd : Option ℝ) : DemData :=
  { values := vals, width := 1, height := 1,
    bbox := ⟨-10, -10, 10, 10⟩, wgs84Bbox := ⟨-10, -10, 10, 10⟩,
    noDataValue := nd, projConverter := none }

/-- A 1×1 DEM whose single cell holds elevation 50. -/
def demUnit : DemData := unitDem [50] (some (-9999))

/-- A 1×1 DEM whose single cell holds exactly the no-data sentinel. -/
def demNoData : DemData := unitDem [-9999] (some (-9999))

/-- An equatorial line from longitude -2 to longitude 12: its second half lies
outside `demUnit`. -/
def lineC3 : List (ℝ × ℝ) := [(-2, 0), (12, 0)]

/-- The exact length of `lineC3` in kilometres: 14 degrees along the equator. -/
def totalC3 : ℝ := 6371 * (14 * π / 180)

/-- The profile `getProfileFromDem` extracts from `lineC3` over `demUnit` with
a sample budget of 1: two valid samples, the last at half the line length. -/
def profC3 : List Sample := [⟨0, 50⟩, ⟨totalC3 * 500, 50⟩]

/-- A degenerate (zero-length) line. -/
def lineC5 : List (ℝ × ℝ) := [(0, 0), (0, 0)]

/-- A closed square ring inside the extent of `demUnit`, centred on the equator. -/
def ringSq : List (ℝ × ℝ) := [(0, -1), (1, -1), (1, 1), (0, 1), (0, -1)]

/-- `ringSq` with its precomputed bounding box, as the drawing layer supplies it. -/
def polyC7 : PolygonFeature := ⟨ringSq, some ⟨0, -1, 1, 1⟩⟩

/-- `ringSq` with no precomputed bounding box. -/
def polyC2 : PolygonFeature := ⟨ringSq, none⟩

/-- A closed triangle ring lying entirely east of the extent of `demUnit`. -/
def polyC4 : PolygonFeature := ⟨[(100, 0), (101, 0), (101, 1), (100, 0)], none⟩

/-- A closed triangle ring inside the extent of `demUnit`. -/
def polyC1 : PolygonFeature := ⟨[(0, 0), (2, 0), (2, 2), (0, 0)], some ⟨0, 0, 2, 2⟩⟩

/-- The volume result computed for `polyC7` over `demUnit` with the
`lowestPoint` method on a 1×1 grid: flat terrain at the base elevation. -/
def resultC7 : VolumeResult := ⟨0, 0, 0, .flat 50, .lowestPoint⟩

end

/-! Basic properties of the geodesic primitives. -/

lemma arctan_nonneg_of_nonneg {x : ℝ} (h : 0 ≤ x) : 0 ≤ arctan x := by
  have hm := arctan_strictMono.monotone h
  rwa [arctan_zero] at hm

lemma atan2_nonneg {y x : ℝ} (hy : 0 ≤ y) : 0 ≤ atan2 y x := by
  unfold atan2
  rcases lt_trichotomy x 0 with hx | hx | hx
  · rw [if_neg (by linarith), if_pos hx, if_pos hy]
    have h1 := neg_pi_div_two_lt_arctan (y / x)
    have h2 := pi_pos
    linarith
  · subst hx
    rw [if_neg (lt_irrefl 0), if_neg (lt_irrefl 0)]
    rcases eq_or_lt_of_le hy with hy0 | hy0
    · rw [if_neg (by linarith), if_neg (by linarith)]
    · rw [if_pos hy0]
      have := pi_pos
      linarith
  · rw [if_pos hx]
    exact arctan_nonneg_of_nonneg (div_nonneg hy hx.le)

lemma haversine_symm (p q : ℝ × ℝ) : haversineDistance p q = haversineDistance q p := by
  unfold haversineDistance
  dsimp only
  have h1 : (p.2 - q.2) * π / 180 / 2 = -((q.2 - p.2) * π / 180 / 2) := by ring
  have h2 : (p.1 - q.1) * π / 180 / 2 = -((q.1 - p.1) * π / 180 / 2) := by ring
  rw [h1, h2, Real.sin_neg, Real.sin_neg]
  ring_nf

lemma haversine_self (p : ℝ × ℝ) : haversineDistance p p = 0 := by
  unfold haversineDistance
  dsimp only
  rw [sub_self, sub_self]
  norm_num [atan2, arctan_zero]

lemma haversine_nonneg (p q : ℝ × ℝ) : 0 ≤ haversineDistance p q := by
  unfold haversineDistance
  dsimp only
  have h := atan2_nonneg (x := Real.sqrt (1 -
    (Real.sin ((q.2 - p.2) * π / 180 / 2) * Real.sin ((q.2 - p.2) * π / 180 / 2) +
      Real.sin ((q.1 - p.1) * π / 180 / 2) * Real.sin ((q.1 - p.1) * π / 180 / 2) *
        Real.cos (p.2 * π / 180) * Real.cos (q.2 * π / 180))))
    (Real.sqrt_nonneg
      (Real.sin ((q.2 - p.2) * π / 180 / 2) * Real.sin ((q.2 - p.2) * π / 180 / 2) +
        Real.sin ((q.1 - p.1) * π / 180 / 2) * Real.sin ((q.1 - p.1) * π / 180 / 2) *
          Real.cos (p.2 * π / 180) * Real.cos (q.2 * π / 180)))
  linarith

lemma lineDistance_nonneg : ∀ l : List (ℝ × ℝ), 0 ≤ calculateLineDistance l
  | [] => le_refl 0
  | [_] => le_refl 0
  | p :: q :: rest => by
    have h1 := haversine_nonneg p q
    have h2 := lineDistance_nonneg (q :: rest)
    unfold calculateLineDistance
    linarith

/-- C9: for every pair of coordinates `A` and `B`, `haversineDistance A B`
equals `haversineDistance B A`, and `haversineDistance A A = 0`. -/
theorem C9_distance_symm_self (A B : ℝ × ℝ) :
    haversineDistance A B = haversineDistance B A ∧ haversineDistance A A = 0 :=
  ⟨haversine_symm A B, haversine_self A⟩

/-! Properties of `calculatePolygonArea`. -/

lemma areaTerm_antisymm (p q : ℝ × ℝ) : areaTerm q p = -areaTerm p q := by
  unfold areaTerm
  ring

lemma getD_reverse (l : List (ℝ × ℝ)) (i : ℕ) (h : i < l.length) :
    l.reverse.getD i (0, 0) = l.getD (l.length - 1 - i) (0, 0) := by
  rw [List.getD_eq_getElem l.reverse (0, 0) (by simpa using h),
      List.getD_eq_getElem l (0, 0) (by omega), List.getElem_reverse]

lemma ringSum_reverse (l : List (ℝ × ℝ)) : ringSum l.reverse = -ringSum l := by
  unfold ringSum
  rw [List.length_reverse]
  rcases Nat.eq_zero_or_pos l.length with h0 | hpos
  · rw [h0]
    simp
  · obtain ⟨m, hm⟩ : ∃ m, l.length = m + 1 := ⟨l.length - 1, by omega⟩
    rw [hm, Finset.sum_range_succ, Finset.sum_range_succ, Nat.mod_self]
    have hrevD : ∀ i : ℕ, i ≤ m → l.reverse.getD i (0, 0) = l.getD (m - i) (0, 0) := by
      intro i hi
      rw [getD_reverse l i (by omega)]
      congr 1
      omega
    have hrevsum :
        (∑ i ∈ Finset.range m, areaTerm (l.reverse.getD i (0, 0))
          (l.reverse.getD ((i + 1) % (m + 1)) (0, 0)))
        = ∑ i ∈ Finset.range m,
            areaTerm (l.getD (m - i) (0, 0)) (l.getD (m - i - 1) (0, 0)) := by
      refine Finset.sum_congr rfl fun i hi => ?_
      have hi' := Finset.mem_range.mp hi
      rw [Nat.mod_eq_of_lt (by omega), hrevD i (by omega), hrevD (i + 1) (by omega)]
      have e2 : m - (i + 1) = m - i - 1 := by omega
      rw [e2]
    have hreflect :
        (∑ i ∈ Finset.range m,
          areaTerm (l.getD (m - i) (0, 0)) (l.getD (m - i - 1) (0, 0)))
        = ∑ j ∈ Finset.range m, areaTerm (l.getD (j + 1) (0, 0)) (l.getD j (0, 0)) := by
      have hr := Finset.sum_range_reflect
        (fun j => areaTerm (l.getD (j + 1) (0, 0)) (l.getD j (0, 0))) m
      rw [← hr]
      refine Finset.sum_congr rfl fun i hi => ?_
      have hi' := Finset.mem_range.mp hi
      have e1 : m - i = m - 1 - i + 1 := by omega
      have e2 : m - i - 1 = m - 1 - i := by omega
      rw [e2, e1]
    have hanti :
        (∑ j ∈ Finset.range m, areaTerm (l.getD (j + 1) (0, 0)) (l.getD j (0, 0)))
        = -∑ j ∈ Finset.range m, areaTerm (l.getD j (0, 0)) (l.getD ((j + 1) % (m + 1)) (0, 0)) := by
      rw [← Finset.sum_neg_distrib]
      refine Finset.sum_congr rfl fun j hj => ?_
      have hj' := Finset.mem_range.mp hj
      rw [Nat.mod_eq_of_lt (by omega)]
      exact areaTerm_antisymm _ _
    have hwrap : areaTerm (l.reverse.getD m (0, 0)) (l.reverse.getD 0 (0, 0))
        = -areaTerm (l.getD m (0, 0)) (l.getD 0 (0, 0)) := by
      rw [hrevD m (le_refl m), hrevD 0 (Nat.zero_le m), Nat.sub_self, Nat.sub_zero]
      exact areaTerm_antisymm _ _
    rw [hrevsum, hreflect, hanti, hwrap]
    ring

lemma calculatePolygonArea_nonneg (l : List (ℝ × ℝ)) : 0 ≤ calculatePolygonArea l := by
  unfold calculatePolygonArea
  split_ifs
  · exact le_refl 0
  · exact abs_nonneg _

lemma calculatePolygonArea_reverse (l : List (ℝ × ℝ)) :
    calculatePolygonArea l.reverse = calculatePolygonArea l := by
  unfold calculatePolygonArea
  rw [List.length_reverse, ringSum_reverse]
  split_ifs
  · rfl
  · dsimp only
    rw [neg_mul, neg_div, abs_neg]

/-- C8: for every coordinate ring, `calculatePolygonArea` is nonnegative, the
reversed (opposite-winding) ring yields the same magnitude, and a ring of
fewer than 3 vertices yields 0. -/
theorem C8_area_properties (rg : List (ℝ × ℝ)) :
    0 ≤ calculatePolygonArea rg ∧
    calculatePolygonArea rg.reverse = calculatePolygonArea rg ∧
    (rg.length < 3 → calculatePolygonArea rg = 0) :=
  ⟨calculatePolygonArea_nonneg rg, calculatePolygonArea_reverse rg,
   fun h => by unfold calculatePolygonArea; rw [if_pos h]⟩

/-- C8 witness: a concrete two-vertex ring has area 0. -/
theorem C8_witness : calculatePolygonArea [(0, 0), (1, 0)] = 0 :=
  (C8_area_properties [(0, 0), (1, 0)]).2.2 (by norm_num)

/-! Evaluation of the DEM sampler. -/

lemma floor01 {u : ℝ} (h0 : 0 ≤ u) (h1 : u < 1) : ⌊u⌋ = 0 :=
  Int.floor_eq_iff.mpr ⟨by exact_mod_cast h0, by norm_num [h1]⟩

lemma getElevation_of_cellIndex (lon lat : ℝ) (dem : DemData) (idx : ℕ) (e : ℝ)
    (hc : demCellIndex lon lat dem = some idx)
    (hv : dem.values[idx]? = some e)
    (hne : ¬some e = dem.noDataValue) :
    getElevationFromDem lon lat dem = some e := by
  unfold getElevationFromDem
  rw [hc]
  dsimp only
  rw [hv]
  dsimp only
  rw [if_neg hne]

lemma unitDem_cellIndex (vals : List ℝ) (nd : Option ℝ) (lon lat : ℝ)
    (h1 : -10 ≤ lon) (h2 : lon < 10) (h3 : -10 < lat) (h4 : lat ≤ 10) :
    demCellIndex lon lat (unitDem vals nd) = some 0 := by
  unfold demCellIndex projectPoint
  dsimp only [unitDem]
  have hxeq : (lon - (-10 : ℝ)) / (10 - (-10)) * ((1 : ℕ) : ℝ) = (lon + 10) / 20 := by
    push_cast
    ring
  have hyeq : ((10 : ℝ) - lat) / (10 - (-10)) * ((1 : ℕ) : ℝ) = (10 - lat) / 20 := by
    push_cast
    ring
  have hfx : ⌊(lon - (-10 : ℝ)) / (10 - (-10)) * ((1 : ℕ) : ℝ)⌋ = 0 := by
    rw [hxeq]
    refine floor01 (div_nonneg (by linarith) (by norm_num)) ?_
    rw [div_lt_one (by norm_num)]
    linarith
  have hfy : ⌊((10 : ℝ) - lat) / (10 - (-10)) * ((1 : ℕ) : ℝ)⌋ = 0 := by
    rw [hyeq]
    refine floor01 (div_nonneg (by linarith) (by norm_num)) ?_
    rw [div_lt_one (by norm_num)]
    linarith
  rw [if_neg (by push_neg; exact ⟨h1, h2.le, h3.le, h4⟩),
      if_neg (by push_neg; exact ⟨h1, h2.le, h3.le, h4⟩), hfx, hfy]
  norm_num

lemma unitDem_outside_east (vals : List ℝ) (nd : Option ℝ) (lon lat : ℝ) (h : 10 < lon) :
    getElevationFromDem lon lat (unitDem vals nd) = none := by
  unfold getElevationFromDem
  have hc : demCellIndex lon lat (unitDem vals nd) = none := by
    unfold demCellIndex
    dsimp only [unitDem]
    rw [if_pos (Or.inr (Or.inl h))]
  rw [hc]

lemma demUnit_sample (lon lat : ℝ) (h1 : -10 ≤ lon) (h2 : lon < 10)
    (h3 : -10 < lat) (h4 : lat ≤ 10) :
    getElevationFromDem lon lat demUnit = some 50 := by
  unfold demUnit
  exact getElevation_of_cellIndex lon lat _ 0 50
    (unitDem_cellIndex [50] (some (-9999)) lon lat h1 h2 h3 h4) rfl (by norm_num [unitDem])

/-- C6: a query that resolves to a cell holding exactly the no-data sentinel
returns `none`, and the sampler never returns the sentinel itself as an
elevation. -/
theorem C6_nodata_isolation (lon lat : ℝ) (dem : DemData) (nd : ℝ)
    (hnd : dem.noDataValue = some nd) :
    (∀ idx, demCellIndex lon lat dem = some idx → dem.values[idx]? = some nd →
      getElevationFromDem lon lat dem = none) ∧
    getElevationFromDem lon lat dem ≠ some nd := by
  constructor
  · intro idx hidx hval
    unfold getElevationFromDem
    rw [hidx]
    dsimp only
    rw [hval]
    dsimp only
    rw [if_pos hnd.symm]
  · unfold getElevationFromDem
    cases hic : demCellIndex lon lat dem with
    | none => exact fun h => Option.noConfusion h
    | some idx =>
      dsimp only
      cases hv : dem.values[idx]? with
      | none => exact fun h => Option.noConfusion h
      | some e =>
        show (if some e = dem.noDataValue then none else some e) ≠ some nd
        by_cases he : some e = dem.noDataValue
        · rw [if_pos he]
          exact fun h => Option.noConfusion h
        · rw [if_neg he]
          intro h
          rw [Option.some_inj] at h
          exact he (by rw [hnd, h])

/-- C6 witness: a concrete 1×1 DEM whose single cell holds the sentinel
`-9999` yields `none`, not `some (-9999)`, at an interior query. -/
theorem C6_witness :
    getElevationFromDem 0 0 demNoData = none ∧
    getElevationFromDem 0 0 demNoData ≠ some (-9999) := by
  have h := C6_nodata_isolation 0 0 demNoData (-9999) rfl
  refine ⟨h.1 0 ?_ ?_, h.2⟩
  · unfold demNoData
    exact unitDem_cellIndex [-9999] (some (-9999)) 0 0
      (by norm_num) (by norm_num) (by norm_num) (by norm_num)
  · rfl

/-- C10: a query passing both bounding-box tests whose projected X coordinate
equals the native bbox's `maxX`, or whose projected Y coordinate equals its
`minY`, is rejected: the fractional position reaches exactly 1 and
`floor(1 * dimension)` equals the dimension, which the index guard excludes. -/
theorem C10_boundary_exclusion (dem : DemData) (lon lat : ℝ)
    (hwf : dem.WellFormed)
    (hwgs : ¬(lon < dem.wgs84Bbox.minX ∨ lon > dem.wgs84Bbox.maxX ∨
              lat < dem.wgs84Bbox.minY ∨ lat > dem.wgs84Bbox.maxY))
    (hproj : ¬((projectPoint dem (lon, lat)).1 < dem.bbox.minX ∨
               (projectPoint dem (lon, lat)).1 > dem.bbox.maxX ∨
               (projectPoint dem (lon, lat)).2 < dem.bbox.minY ∨
               (projectPoint dem (lon, lat)).2 > dem.bbox.maxY))
    (hedge : (projectPoint dem (lon, lat)).1 = dem.bbox.maxX ∨
             (projectPoint dem (lon, lat)).2 = dem.bbox.minY) :
    getElevationFromDem lon lat dem = none := by
  obtain ⟨-, -, -, hX, hY⟩ := hwf
  have hc : demCellIndex lon lat dem = none := by
    unfold demCellIndex
    rw [if_neg hwgs, if_neg hproj, if_pos]
    rcases hedge with hE | hE
    · refine Or.inr (Or.inl ?_)
      rw [hE, div_self (by linarith), one_mul, Int.floor_natCast]
    · refine Or.inr (Or.inr (Or.inr ?_))
      rw [hE, div_self (by linarith), one_mul, Int.floor_natCast]
  unfold getElevationFromDem
  rw [hc]

/-- C10 witness: in a concrete well-formed DEM, the query sitting exactly on
the eastern boundary of the extent resolves to no elevation. -/
theorem C10_witness : getElevationFromDem 10 0 demUnit = none := by
  unfold demUnit unitDem
  refine C10_boundary_exclusion _ 10 0 ?_ ?_ ?_ ?_
  · exact ⟨by norm_num, by norm_num, by norm_num, by norm_num, by norm_num⟩
  · push_neg
    refine ⟨by norm_num, by norm_num, by norm_num, by norm_num⟩
  · push_neg
    unfold projectPoint
    refine ⟨by norm_num, by norm_num, by norm_num, by norm_num⟩
  · left
    unfold projectPoint
    norm_num

/-! Structural properties of the volume engine. -/

lemma filterMap_elev_length (dem : DemData) :
    ∀ l : List (ℝ × ℝ),
      (l.filterMap fun coord => (getElevationFromDem coord.1 coord.2 dem).map fun elev =>
        PerimeterPoint.mk coord (projectPoint dem coord) elev).length
      = (l.filter fun c => (getElevationFromDem c.1 c.2 dem).isSome).length
  | [] => rfl
  | c :: rest => by
    rw [List.filterMap_cons, List.filter_cons]
    cases h : getElevationFromDem c.1 c.2 dem with
    | none => simp [h, filterMap_elev_length dem rest]
    | some e => simp [h, filterMap_elev_length dem rest]

lemma perimeterPoints_length (polygon : PolygonFeature) (dem : DemData) :
    (perimeterPoints polygon dem).length =
      (polygon.ring.filter fun c => (getElevationFromDem c.1 c.2 dem).isSome).length := by
  unfold perimeterPoints
  exact filterMap_elev_length dem polygon.ring

/-- C4: when fewer than 3 outer-ring vertices resolve to a DEM elevation,
`getVolumeFromDem` fails with `none` for every method. -/
theorem C4_insufficient_perimeter (polygon : PolygonFeature) (dem : DemData)
    (options : VolumeOptions)
    (h : (polygon.ring.filter fun c => (getElevationFromDem c.1 c.2 dem).isSome).length < 3) :
    getVolumeFromDem polygon dem options = none := by
  unfold getVolumeFromDem getVolumeFromDemT
  rw [if_pos (by rw [perimeterPoints_length]; exact h)]

/-- C4 witness: a triangle entirely east of the DEM extent has 0 resolvable
vertices and volume analysis fails. -/
theorem C4_witness :
    ((polyC4.ring.filter fun c => (getElevationFromDem c.1 c.2 demUnit).isSome).length < 3) ∧
    getVolumeFromDem polyC4 demUnit ⟨.bestFit, none, 50⟩ = none := by
  have e1 : getElevationFromDem 100 0 demUnit = none :=
    unitDem_outside_east [50] (some (-9999)) 100 0 (by norm_num)
  have e2 : getElevationFromDem 101 0 demUnit = none :=
    unitDem_outside_east [50] (some (-9999)) 101 0 (by norm_num)
  have e3 : getElevationFromDem 101 1 demUnit = none :=
    unitDem_outside_east [50] (some (-9999)) 101 1 (by norm_num)
  have hlen : ((polyC4.ring.filter fun c =>
      (getElevationFromDem c.1 c.2 demUnit).isSome).length < 3) := by
    simp [polyC4, List.filter, e1, e2, e3]
  exact ⟨hlen, C4_insufficient_perimeter polyC4 demUnit ⟨.bestFit, none, 50⟩ hlen⟩

lemma volume_fixedElevation_none (polygon : PolygonFeature) (dem : DemData) (gridSize : ℕ) :
    getVolumeFromDemT polygon dem ⟨.fixedElevation, none, gridSize⟩ =
      (none, polygon.ring.length) := by
  unfold getVolumeFromDemT
  by_cases h : (perimeterPoints polygon dem).length < 3
  · rw [if_pos h]
  · rw [if_neg h]
    have hbp : computeBasePlane (perimeterPoints polygon dem)
        ⟨.fixedElevation, none, gridSize⟩ = none := by
      unfold computeBasePlane
      simp
    rw [hbp]

/-- C1 (amended): requesting `fixedElevation` without a supplied elevation
always yields `none`, but only after the perimeter phase has sampled the DEM
once per outer-ring vertex — the access count equals the ring length. -/
theorem C1_fixedElevation_missing (polygon : PolygonFeature) (dem : DemData) (gridSize : ℕ) :
    getVolumeFromDemT polygon dem ⟨.fixedElevation, none, gridSize⟩ =
      (none, polygon.ring.length) :=
  volume_fixedElevation_none polygon dem gridSize

/-- C1 counterexample: for a concrete 4-vertex ring inside the DEM, the
`fixedElevation`-without-value call returns `none` as claimed, but the DEM
access count is nonzero — the failure is not surfaced before DEM access. -/
theorem C1_counterexample :
    (getVolumeFromDemT polyC1 demUnit ⟨.fixedElevation, none, 50⟩).1 = none ∧
    (getVolumeFromDemT polyC1 demUnit ⟨.fixedElevation, none, 50⟩).2 ≠ 0 := by
  rw [volume_fixedElevation_none polyC1 demUnit 50]
  refine ⟨rfl, ?_⟩
  norm_num [polyC1]

/-- C5: `getProfileFromDem` returns `none` exactly when the line length is
zero or fewer than 2 valid samples were collected, and any successful profile
has at least 2 samples. -/
theorem C5_profile_none_iff (line : List (ℝ × ℝ)) (dem : DemData) (samples : ℕ) :
    ((getProfileFromDem line dem samples = none) ↔
      (calculateLineDistance line = 0 ∨ (buildProfile line dem samples).length < 2)) ∧
    (∀ p, getProfileFromDem line dem samples = some p → 2 ≤ p.length) := by
  unfold getProfileFromDem
  by_cases h0 : calculateLineDistance line = 0
  · rw [if_pos h0]
    exact ⟨⟨fun _ => Or.inl h0, fun _ => rfl⟩, fun p hp => Option.noConfusion hp⟩
  · rw [if_neg h0]
    by_cases h1 : 1 < (buildProfile line dem samples).length
    · rw [if_pos h1]
      refine ⟨⟨fun hcontra => Option.noConfusion hcontra, fun hor => ?_⟩, fun p hp => ?_⟩
      · rcases hor with h | h
        · exact absurd h h0
        · exact absurd h (by omega)
      · rw [Option.some_inj] at hp
        rw [← hp]
        omega
    · rw [if_neg h1]
      exact ⟨⟨fun _ => Or.inr (by omega), fun _ => rfl⟩, fun p hp => Option.noConfusion hp⟩

/-- C5 witness: the degenerate zero-length line fails. -/
theorem C5_witness : getProfileFromDem lineC5 demUnit 100 = none := by
  have h0 : calculateLineDistance lineC5 = 0 := by
    have h := haversine_self ((0 : ℝ), (0 : ℝ))
    unfold lineC5 calculateLineDistance
    rw [h]
    norm_num [calculateLineDistance]
  exact ((C5_profile_none_iff lineC5 demUnit 100).1).mpr (Or.inl h0)

lemma gridCellContribution_nonneg (dem : DemData) (rg : List (ℝ × ℝ)) (bp : BasePlane)
    (m1 m2 m3 m4 m5 m6 m7 m8 cellArea : ℝ) (hA : 0 ≤ cellArea) (i j : ℕ) :
    0 ≤ (gridCellContribution dem rg bp m1 m2 m3 m4 m5 m6 m7 m8 cellArea i j).1 ∧
    0 ≤ (gridCellContribution dem rg bp m1 m2 m3 m4 m5 m6 m7 m8 cellArea i j).2.1 := by
  unfold gridCellContribution
  dsimp only
  split
  · split
    · split
      · rename_i hd
        exact ⟨le_refl 0, mul_nonneg (le_of_lt hd) hA⟩
      · rename_i hd
        push_neg at hd
        exact ⟨mul_nonneg (by linarith) hA, le_refl 0⟩
    · exact ⟨le_refl 0, le_refl 0⟩
  · exact ⟨le_refl 0, le_refl 0⟩

/-- C7: every successful result of `getVolumeFromDem` has `cut ≥ 0`,
`fill ≥ 0`, and `net = fill - cut` exactly, by construction of the
accumulation. -/
theorem C7_volume_invariants (polygon : PolygonFeature) (dem : DemData)
    (options : VolumeOptions) (r : VolumeResult)
    (h : getVolumeFromDem polygon dem options = some r) :
    0 ≤ r.cut ∧ 0 ≤ r.fill ∧ r.net = r.fill - r.cut := by
  unfold getVolumeFromDem getVolumeFromDemT at h
  by_cases h3 : (perimeterPoints polygon dem).length < 3
  · rw [if_pos h3] at h
    exact Option.noConfusion h
  · rw [if_neg h3] at h
    cases hbp : computeBasePlane (perimeterPoints polygon dem) options with
    | none =>
      rw [hbp] at h
      exact Option.noConfusion h
    | some bp =>
      rw [hbp] at h
      cases hbox : polygon.bbox with
      | none =>
        rw [hbox] at h
        dsimp only at h
        rw [Option.some_inj] at h
        subst h
        refine ⟨le_refl 0, le_refl 0, by norm_num⟩
      | some box =>
        rw [hbox] at h
        dsimp only at h
        rw [Option.some_inj] at h
        subst h
        dsimp only
        have hA : (0 : ℝ) ≤
            haversineDistance (box.minX, box.minY + (box.maxY - box.minY) / 2)
                (box.minX + (box.maxX - box.minX) / (options.gridSize : ℝ),
                  box.minY + (box.maxY - box.minY) / 2) * 1000 *
              (haversineDistance (box.minX, box.minY)
                (box.minX, box.minY + (box.maxY - box.minY) / (options.gridSize : ℝ)) * 1000) :=
          mul_nonneg (mul_nonneg (haversine_nonneg _ _) (by norm_num))
            (mul_nonneg (haversine_nonneg _ _) (by norm_num))
        refine ⟨?_, ?_, rfl⟩
        · exact Finset.sum_nonneg fun i _ => Finset.sum_nonneg fun j _ =>
            (gridCellContribution_nonneg dem polygon.ring bp _ _ _ _ _ _ _ _ _ hA i j).1
        · exact Finset.sum_nonneg fun i _ => Finset.sum_nonneg fun j _ =>
            (gridCellContribution_nonneg dem polygon.ring bp _ _ _ _ _ _ _ _ _ hA i j).2

/-! Monotonicity and bounds of the profile extractor. -/

lemma segSamples_bounds (dem : DemData) (p q : ℝ × ℝ) (acc : ℝ) (num : ℕ) :
    ∀ s ∈ segSamples dem p q acc num,
      acc * 1000 ≤ s.distance ∧ s.distance ≤ (acc + haversineDistance p q) * 1000 := by
  intro s hs
  unfold segSamples at hs
  rw [List.mem_filterMap] at hs
  obtain ⟨j0, hj0, hfs⟩ := hs
  rw [List.mem_range] at hj0
  rw [Option.map_eq_some'] at hfs
  obtain ⟨elev, -, hsEq⟩ := hfs
  rw [← hsEq]
  have hnum : (0 : ℝ) < (num : ℝ) := by
    have : 0 < num := by omega
    exact_mod_cast this
  have ht0 : (0 : ℝ) ≤ ((j0 + 1 : ℕ) : ℝ) / (num : ℝ) :=
    div_nonneg (by positivity) hnum.le
  have ht1 : ((j0 + 1 : ℕ) : ℝ) / (num : ℝ) ≤ 1 := by
    rw [div_le_one hnum]
    exact_mod_cast hj0
  have hd := haversine_nonneg p q
  have hmul0 : 0 ≤ haversineDistance p q * (((j0 + 1 : ℕ) : ℝ) / (num : ℝ)) :=
    mul_nonneg hd ht0
  have hmul1 : haversineDistance p q * (((j0 + 1 : ℕ) : ℝ) / (num : ℝ)) ≤ haversineDistance p q :=
    mul_le_of_le_one_right hd ht1
  constructor
  · have : acc ≤ acc + haversineDistance p q * (((j0 + 1 : ℕ) : ℝ) / (num : ℝ)) := by linarith
    nlinarith
  · have : acc + haversineDistance p q * (((j0 + 1 : ℕ) : ℝ) / (num : ℝ)) ≤
        acc + haversineDistance p q := by linarith
    nlinarith

lemma segSamples_pairwise (dem : DemData) (p q : ℝ × ℝ) (acc : ℝ) (num : ℕ) :
    (segSamples dem p q acc num).Pairwise fun a b => a.distance ≤ b.distance := by
  unfold segSamples
  rw [List.pairwise_filterMap]
  refine (List.pairwise_lt_range num).imp_of_mem ?_
  intro a b ha hb hab
  intro x hx y hy
  rw [Option.mem_def, Option.map_eq_some'] at hx hy
  obtain ⟨ea, -, hxa⟩ := hx
  obtain ⟨eb, -, hyb⟩ := hy
  rw [← hxa, ← hyb]
  rw [List.mem_range] at hb
  have hnum : (0 : ℝ) < (num : ℝ) := by
    have : 0 < num := by omega
    exact_mod_cast this
  have hd := haversine_nonneg p q
  have hta : ((a + 1 : ℕ) : ℝ) / (num : ℝ) ≤ ((b + 1 : ℕ) : ℝ) / (num : ℝ) := by
    rw [div_le_div_iff_of_pos_right hnum]
    exact_mod_cast Nat.succ_le_succ hab.le
  have hmono : haversineDistance p q * (((a + 1 : ℕ) : ℝ) / (num : ℝ)) ≤
      haversineDistance p q * (((b + 1 : ℕ) : ℝ) / (num : ℝ)) :=
    mul_le_mul_of_nonneg_left hta hd
  have h1000 : (0 : ℝ) ≤ 1000 := by norm_num
  exact mul_le_mul_of_nonneg_right (by linarith) h1000

lemma walkSegments_bounds (dem : DemData) (samples : ℕ) (total : ℝ) :
    ∀ (coords : List (ℝ × ℝ)) (acc : ℝ), ∀ s ∈ walkSegments dem samples total coords acc,
      acc * 1000 ≤ s.distance ∧ s.distance ≤ (acc + calculateLineDistance coords) * 1000
  | [], _ => by
    intro s hs
    cases hs
  | [_], _ => by
    intro s hs
    cases hs
  | p :: q :: rest, acc => by
    intro s hs
    unfold walkSegments at hs
    rw [List.mem_append] at hs
    have hd := haversine_nonneg p q
    have hrest := lineDistance_nonneg (q :: rest)
    have hline : calculateLineDistance (p :: q :: rest) =
        haversineDistance p q + calculateLineDistance (q :: rest) := rfl
    rcases hs with hs | hs
    · have h := segSamples_bounds dem p q acc _ s hs
      refine ⟨h.1, ?_⟩
      have h2 := h.2
      rw [hline]
      nlinarith
    · have h := walkSegments_bounds dem samples total (q :: rest)
        (acc + haversineDistance p q) s hs
      rw [hline]
      constructor
      · have h1 := h.1
        nlinarith
      · have h2 := h.2
        nlinarith

lemma walkSegments_pairwise (dem : DemData) (samples : ℕ) (total : ℝ) :
    ∀ (coords : List (ℝ × ℝ)) (acc : ℝ),
      (walkSegments dem samples total coords acc).Pairwise fun a b =>
        a.distance ≤ b.distance
  | [], _ => List.Pairwise.nil
  | [_], _ => List.Pairwise.nil
  | p :: q :: rest, acc => by
    unfold walkSegments
    rw [List.pairwise_append]
    refine ⟨segSamples_pairwise dem p q acc _,
      walkSegments_pairwise dem samples total (q :: rest) _, ?_⟩
    intro a ha b hb
    have h1 := (segSamples_bounds dem p q acc _ a ha).2
    have h2 := (walkSegments_bounds dem samples total (q :: rest)
      (acc + haversineDistance p q) b hb).1
    linarith

lemma startSample_dist (dem : DemData) :
    ∀ coords : List (ℝ × ℝ), ∀ s ∈ startSample coords dem, s.distance = 0
  | [] => by
    intro s hs
    cases hs
  | p :: rest => by
    intro s hs
    unfold startSample at hs
    cases he : getElevationFromDem p.1 p.2 dem with
    | none => simp [he] at hs
    | some e =>
      simp [he] at hs
      rw [hs]

lemma startSample_pairwise (dem : DemData) :
    ∀ coords : List (ℝ × ℝ),
      (startSample coords dem).Pairwise fun a b => a.distance ≤ b.distance
  | [] => List.Pairwise.nil
  | p :: rest => by
    unfold startSample
    cases he : getElevationFromDem p.1 p.2 dem with
    | none => simp [he]
    | some e => simp [he]

lemma buildProfile_pairwise (coords : List (ℝ × ℝ)) (dem : DemData) (samples : ℕ) :
    (buildProfile coords dem samples).Pairwise fun a b => a.distance ≤ b.distance := by
  unfold buildProfile
  rw [List.pairwise_append]
  refine ⟨startSample_pairwise dem coords, walkSegments_pairwise dem samples _ coords 0, ?_⟩
  intro a ha b hb
  have hb' := (walkSegments_bounds dem samples
    (calculateLineDistance coords) coords 0 b hb).1
  have ha' := startSample_dist dem coords a ha
  rw [ha']
  linarith

lemma buildProfile_bounds (coords : List (ℝ × ℝ)) (dem : DemData) (samples : ℕ) :
    ∀ s ∈ buildProfile coords dem samples,
      s.distance ≤ calculateLineDistance coords * 1000 := by
  unfold buildProfile
  intro s hs
  rw [List.mem_append] at hs
  have htot := lineDistance_nonneg coords
  rcases hs with hs | hs
  · rw [startSample_dist dem coords s hs]
    positivity
  · have h := (walkSegments_bounds dem samples
      (calculateLineDistance coords) coords 0 s hs).2
    nlinarith

/-- C3 (amended): every successful profile has non-decreasing sample
distances, and every sample distance — the final one included — is at most
`calculateLineDistance line * 1000` metres; the final distance can fall short
of that value when trailing samples leave the DEM. -/
theorem C3_profile_monotone_bounded (line : List (ℝ × ℝ)) (dem : DemData) (samples : ℕ)
    (p : List Sample) (h : getProfileFromDem line dem samples = some p) :
    p.Pairwise (fun a b => a.distance ≤ b.distance) ∧
    ∀ s ∈ p, s.distance ≤ calculateLineDistance line * 1000 := by
  unfold getProfileFromDem at h
  by_cases h0 : calculateLineDistance line = 0
  · rw [if_pos h0] at h
    exact Option.noConfusion h
  · rw [if_neg h0] at h
    by_cases h1 : 1 < (buildProfile line dem samples).length
    · rw [if_pos h1, Option.some_inj] at h
      subst h
      exact ⟨buildProfile_pairwise line dem samples, buildProfile_bounds line dem samples⟩
    · rw [if_neg h1] at h
      exact Option.noConfusion h

/-! Closed-form evaluation of the haversine distance along the equator, and
the concrete profile extracted from `lineC3`. -/

lemma haversine_equator (l1 l2 : ℝ) (h1 : l1 ≤ l2) (h2 : l2 - l1 < 180) :
    haversineDistance (l1, 0) (l2, 0) = 6371 * ((l2 - l1) * π / 180) := by
  unfold haversineDistance
  dsimp only
  have e0 : ((0 : ℝ) - 0) * π / 180 / 2 = 0 := by ring
  have e1 : (0 : ℝ) * π / 180 = 0 := by ring
  rw [e0, e1, Real.sin_zero, Real.cos_zero]
  generalize hθ : (l2 - l1) * π / 180 / 2 = θ
  have hθ0 : 0 ≤ θ := by
    rw [← hθ]
    have hd : 0 ≤ l2 - l1 := by linarith
    positivity
  have hθhalf : θ < π / 2 := by
    rw [← hθ]
    nlinarith [pi_pos]
  have h2θ : (l2 - l1) * π / 180 = 2 * θ := by
    rw [← hθ]
    ring
  rw [h2θ]
  have ea : (0 : ℝ) * 0 + Real.sin θ * Real.sin θ * 1 * 1 = Real.sin θ * Real.sin θ := by ring
  rw [ea]
  have hθpi : θ ≤ π := by
    have := pi_pos
    linarith
  have hsin : 0 ≤ Real.sin θ := Real.sin_nonneg_of_nonneg_of_le_pi hθ0 hθpi
  have hcos : 0 < Real.cos θ := by
    refine Real.cos_pos_of_mem_Ioo ⟨?_, hθhalf⟩
    have := pi_pos
    linarith
  have hpy := Real.sin_sq_add_cos_sq θ
  rw [pow_two, pow_two] at hpy
  have h1c : 1 - Real.sin θ * Real.sin θ = Real.cos θ * Real.cos θ := by linarith
  rw [Real.sqrt_mul_self hsin, h1c, Real.sqrt_mul_self hcos.le]
  unfold atan2
  rw [if_pos hcos, ← Real.tan_eq_sin_div_cos,
    Real.arctan_tan (by linarith [pi_pos]) hθhalf]

lemma totalC3_pos : 0 < totalC3 := by
  unfold totalC3
  positivity

lemma lineC3_distance : calculateLineDistance lineC3 = totalC3 := by
  have hstep : calculateLineDistance lineC3 =
      haversineDistance (-2, 0) (12, 0) + calculateLineDistance [((12 : ℝ), (0 : ℝ))] := rfl
  rw [hstep, haversine_equator (-2) 12 (by norm_num) (by norm_num)]
  unfold totalC3 calculateLineDistance
  norm_num

lemma elev12_none : getElevationFromDem 12 0 demUnit = none := by
  unfold demUnit
  exact unitDem_outside_east [50] (some (-9999)) 12 0 (by norm_num)

lemma profileC3_eval : getProfileFromDem lineC3 demUnit 1 = some profC3 := by
  have hpos := totalC3_pos
  have hs0 : getElevationFromDem (-2 : ℝ) (0 : ℝ) demUnit = some 50 :=
    demUnit_sample (-2) 0 (by norm_num) (by norm_num) (by norm_num) (by norm_num)
  have hs5 : getElevationFromDem (5 : ℝ) (0 : ℝ) demUnit = some 50 :=
    demUnit_sample 5 0 (by norm_num) (by norm_num) (by norm_num) (by norm_num)
  have hseg : haversineDistance ((-2 : ℝ), (0 : ℝ)) ((12 : ℝ), (0 : ℝ)) = totalC3 := by
    rw [haversine_equator (-2) 12 (by norm_num) (by norm_num)]
    unfold totalC3
    norm_num
  have hbp : buildProfile lineC3 demUnit 1 = profC3 := by
    rw [show buildProfile lineC3 demUnit 1 =
        startSample lineC3 demUnit ++
          walkSegments demUnit 1 (calculateLineDistance lineC3) lineC3 0 from rfl,
      lineC3_distance,
      show lineC3 = [((-2 : ℝ), (0 : ℝ)), ((12 : ℝ), (0 : ℝ))] from rfl]
    simp only [startSample, walkSegments, segSamples]
    rw [hs0, hseg, div_self hpos.ne']
    norm_num
    rw [show List.range 2 = [0, 1] from rfl]
    simp only [List.filterMap_cons, List.filterMap_nil]
    norm_num
    rw [hs5, elev12_none]
    simp only [Option.map_some', Option.map_none']
    simp [profC3, Sample.mk.injEq]
    ring
  unfold getProfileFromDem
  rw [lineC3_distance, if_neg hpos.ne', hbp]
  rw [if_pos (by norm_num [profC3])]

/-- C3 counterexample: a successful profile whose final sample distance is far
from `lineLength * 1000` — the line's second half leaves the DEM, so the last
emitted sample sits at half the line length, about 778 km short. -/
theorem C3_counterexample :
    getProfileFromDem lineC3 demUnit 1 = some profC3 ∧
    profC3.getLastD ⟨0, 0⟩ = ⟨totalC3 * 500, 50⟩ ∧
    1 < |calculateLineDistance lineC3 * 1000 - totalC3 * 500| := by
  refine ⟨profileC3_eval, rfl, ?_⟩
  rw [lineC3_distance]
  have he : totalC3 * 1000 - totalC3 * 500 = totalC3 * 500 := by ring
  rw [he, abs_of_pos (mul_pos totalC3_pos (by norm_num))]
  unfold totalC3
  nlinarith [pi_gt_three]

/-- C3 witness: the amended theorem instantiated at the concrete profile of
`lineC3` over `demUnit`. -/
theorem C3_witness :
    profC3.Pairwise (fun a b => a.distance ≤ b.distance) ∧
    ∀ s ∈ profC3, s.distance ≤ calculateLineDistance lineC3 * 1000 :=
  C3_profile_monotone_bounded lineC3 demUnit 1 profC3 profileC3_eval

/-! Concrete evaluation of the volume engine over `ringSq`. -/

lemma ringSq_perimeter (b : Option BBox4) :
    perimeterPoints ⟨ringSq, b⟩ demUnit =
      [⟨(0, -1), (0, -1), 50⟩, ⟨(1, -1), (1, -1), 50⟩, ⟨(1, 1), (1, 1), 50⟩,
       ⟨(0, 1), (0, 1), 50⟩, ⟨(0, -1), (0, -1), 50⟩] := by
  have e1 : getElevationFromDem (0 : ℝ) (-1 : ℝ) demUnit = some 50 :=
    demUnit_sample 0 (-1) (by norm_num) (by norm_num) (by norm_num) (by norm_num)
  have e2 : getElevationFromDem (1 : ℝ) (-1 : ℝ) demUnit = some 50 :=
    demUnit_sample 1 (-1) (by norm_num) (by norm_num) (by norm_num) (by norm_num)
  have e3 : getElevationFromDem (1 : ℝ) (1 : ℝ) demUnit = some 50 :=
    demUnit_sample 1 1 (by norm_num) (by norm_num) (by norm_num) (by norm_num)
  have e4 : getElevationFromDem (0 : ℝ) (1 : ℝ) demUnit = some 50 :=
    demUnit_sample 0 1 (by norm_num) (by norm_num) (by norm_num) (by norm_num)
  have hpc : demUnit.projConverter = none := rfl
  simp [perimeterPoints, ringSq, projectPoint, hpc, e1, e2, e3, e4]

lemma ringSq_baseplane (b : Option BBox4) (gs : ℕ) :
    computeBasePlane (perimeterPoints ⟨ringSq, b⟩ demUnit) ⟨.lowestPoint, none, gs⟩ =
      some (.flat 50) := by
  rw [ringSq_perimeter b]
  unfold computeBasePlane
  simp [jsMinList]

/-- C2 (evaluating the defect): a polygon with no precomputed bbox over a DEM
that resolves all its vertices does not grid the ring's bounds — the
Infinity-seeded bbox of source line 262 collapses the whole integration and
the call returns a spurious `cut = fill = net = 0` result. -/
theorem C2_missing_bbox_zero_result :
    getVolumeFromDem polyC2 demUnit ⟨.lowestPoint, none, 50⟩ =
      some ⟨0, 0, 0, .flat 50, .lowestPoint⟩ := by
  unfold getVolumeFromDem getVolumeFromDemT polyC2
  rw [if_neg (by rw [ringSq_perimeter none]; norm_num), ringSq_baseplane none 50]

lemma inPoly_eval : isPointInPolygon ((0.5 : ℝ), (0 : ℝ)) ringSq = true := by
  unfold isPointInPolygon ringSq
  norm_num [List.foldl, List.getD, Xor']

lemma cellC7_eval (cA : ℝ) :
    gridCellContribution demUnit ringSq (.flat 50) 0 (-1) ((1 - 0) / ((1 : ℕ) : ℝ))
      ((1 - -1) / ((1 : ℕ) : ℝ)) (projectPoint demUnit (0, -1)).1
      (projectPoint demUnit (0, -1)).2
      (((projectPoint demUnit (1, 1)).1 - (projectPoint demUnit (0, -1)).1) / ((1 : ℕ) : ℝ))
      (((projectPoint demUnit (1, 1)).2 - (projectPoint demUnit (0, -1)).2) / ((1 : ℕ) : ℝ))
      cA 0 0 = (0, 0, 1) := by
  unfold gridCellContribution
  dsimp only
  have hlon : (0 : ℝ) + (1 - 0) / ((1 : ℕ) : ℝ) * (((0 : ℕ) : ℝ) + 0.5) = 0.5 := by norm_num
  have hlat : (-1 : ℝ) + (1 - -1) / ((1 : ℕ) : ℝ) * (((0 : ℕ) : ℝ) + 0.5) = 0 := by norm_num
  have hs : getElevationFromDem (0.5 : ℝ) (0 : ℝ) demUnit = some 50 :=
    demUnit_sample 0.5 0 (by norm_num) (by norm_num) (by norm_num) (by norm_num)
  rw [hlon, hlat, inPoly_eval]
  simp only [if_true]
  rw [hs]
  dsimp only [baseElevationAt]
  norm_num

lemma volumeC7_eval :
    getVolumeFromDem polyC7 demUnit ⟨.lowestPoint, none, 1⟩ = some resultC7 := by
  unfold getVolumeFromDem getVolumeFromDemT polyC7
  rw [if_neg (by rw [ringSq_perimeter (some ⟨0, -1, 1, 1⟩)]; norm_num),
      ringSq_baseplane (some ⟨0, -1, 1, 1⟩) 1]
  dsimp only
  rw [Option.some_inj]
  simp only [Finset.sum_range_one]
  rw [cellC7_eval]
  simp [resultC7]

/-- C7 witness: the invariants instantiated at the concrete successful volume
computation over `polyC7` and `demUnit`. -/
theorem C7_witness :
    0 ≤ resultC7.cut ∧ 0 ≤ resultC7.fill ∧ resultC7.net = resultC7.fill - resultC7.cut :=
  C7_volume_invariants polyC7 demUnit ⟨.lowestPoint, none, 1⟩ resultC7 volumeC7_eval

end GeoMath
